import Mathlib

/-!
Shallow embedding of the error taxonomy, HTTP mapping, validation,
authorization and use-case orchestration layers of the bun-hono-ddd-template
backend, together with theorems settling the specification claims.

Conventions of the embedding:
* `neverthrow`'s `Result<T, E>` is embedded as `Except E T`
  (`ok` = `Except.ok`, `err` = `Except.error`).
* JavaScript `Date` values are embedded as `Nat` timestamps; a nullable
  `Date | null` field becomes `Option Nat` (a `Date` object is always truthy,
  `null` is falsy, so JS truthiness tests on such fields become `Option.isSome`).
* `Map<string, T>` stores (in-memory repositories) are embedded as
  `List T` keyed by the entity's `id` field, in insertion order:
  `Map.get` is `List.find?` on the key, `Map.set` on an existing key is a
  positional replacement (`List.map` guarded on the key; in every Map-reachable
  state the ids are pairwise distinct), `Map.set` on a fresh key appends.
* `crypto.randomUUID()` and `new Date()` are nondeterministic inputs of the
  code; they are passed to the embedded operations as explicit
  `newId : String` / `now : Nat` arguments.
-/

/-- `ValidationDetail` from `domain/errors.ts`: `{field, message, code?}`. -/
structure ValidationDetail where
  field : String
  message : String
  code : Option String
deriving DecidableEq, Repr

/-- The `DomainError` tagged union from `domain/errors.ts`; constructor per tag,
carrying that tag's fields. The TS `cause?: unknown` of `UnexpectedError` is
embedded as `Option String` (the function under study never inspects it). -/
inductive DomainError where
  | validation (message : String) (field : Option String)
      (details : Option (List ValidationDetail))
  | notFound (message : String) (resource : String) (id : Option String)
  | conflict (message : String) (resource : Option String)
      (conflictReason : Option String)
  | unauthorized (message : String)
  | forbidden (message : String) (requiredPermission : Option String)
  | unexpected (message : String) (cause : Option String)
deriving DecidableEq, Repr

/-- Factory `validationError` from `domain/errors.ts`. -/
def validationError (message : String) (field : Option String := none)
    (details : Option (List ValidationDetail) := none) : DomainError :=
  .validation message field details

/-- Factory `notFoundError` from `domain/errors.ts`; the message auto-formats
as `"{resource}{ with id '{id}'} not found"`. -/
def notFoundError (resource : String) (id : Option String := none) : DomainError :=
  .notFound
    (resource ++ (match id with
      | some i => " with id '" ++ i ++ "'"
      | none => "") ++ " not found")
    resource id

/-- Factory `conflictError` from `domain/errors.ts`. -/
def conflictError (message : String) (resource : Option String := none)
    (conflictReason : Option String := none) : DomainError :=
  .conflict message resource conflictReason

/-- Factory `unauthorizedError` from `domain/errors.ts` (default message
`"Authentication required"`). -/
def unauthorizedError (message : String := "Authentication required") : DomainError :=
  .unauthorized message

/-- Factory `forbiddenError` from `domain/errors.ts`. -/
def forbiddenError (message : String)
    (requiredPermission : Option String := none) : DomainError :=
  .forbidden message requiredPermission

/-- Factory `unexpectedError` from `domain/errors.ts`. -/
def unexpectedError (message : String) (cause : Option String := none) : DomainError :=
  .unexpected message cause

/-- The `message` field common to every `DomainError` value. -/
def DomainError.message : DomainError → String
  | .validation m _ _ => m
  | .notFound m _ _ => m
  | .conflict m _ _ => m
  | .unauthorized m => m
  | .forbidden m _ => m
  | .unexpected m _ => m

/-! ### The HTTP mapping stage (`utils/http-error.ts`, `types/http-error.ts`)

`toHttpError` reads its argument dynamically: it checks for an `issues` array
(the zod branch) and otherwise reads the string field `.type` and indexes the
three record tables with it. To capture this, its domain-side input is the
untyped view `ErrorValue`: an arbitrary tag string plus the fields the
function reads (`message`, `details`, and the never-read `cause`). -/

/-- Untyped view of a domain-error object as `toHttpError` consumes it:
the `.type` discriminant string and the fields the mapping stage reads. -/
structure ErrorValue where
  type : String
  message : String
  details : Option (List ValidationDetail)
  cause : Option String
deriving DecidableEq, Repr

/-- Forget a `DomainError` into its untyped `ErrorValue` view. -/
def DomainError.toErrorValue : DomainError → ErrorValue
  | .validation m _ d => ⟨"ValidationError", m, d, none⟩
  | .notFound m _ _ => ⟨"NotFoundError", m, none, none⟩
  | .conflict m _ _ => ⟨"ConflictError", m, none, none⟩
  | .unauthorized m => ⟨"UnauthorizedError", m, none, none⟩
  | .forbidden m _ => ⟨"ForbiddenError", m, none, none⟩
  | .unexpected m c => ⟨"UnexpectedError", m, none, c⟩

/-- One zod issue as `zodErrorToDetails` consumes it: a path of keys, a
message and a code. -/
structure ZodIssue where
  path : List String
  message : String
  code : String
deriving DecidableEq, Repr

/-- Input of `toHttpError`: either a `ZodError` (an object with an `issues`
array) or a domain-error object. -/
inductive HttpErrorInput where
  | zod (issues : List ZodIssue)
  | domain (e : ErrorValue)
deriving DecidableEq, Repr

/-- `ERROR_TYPE_URNS` record from `types/http-error.ts` (note the seventh key
`ZodError`, mapped to the validation URN). -/
def ERROR_TYPE_URNS : String → Option String
  | "ValidationError" => some "urn:app:error:validation"
  | "NotFoundError" => some "urn:app:error:not-found"
  | "ConflictError" => some "urn:app:error:conflict"
  | "UnauthorizedError" => some "urn:app:error:unauthorized"
  | "ForbiddenError" => some "urn:app:error:forbidden"
  | "UnexpectedError" => some "urn:app:error:unexpected"
  | "ZodError" => some "urn:app:error:validation"
  | _ => none

/-- `ERROR_STATUS_CODES` record from `types/http-error.ts`. -/
def ERROR_STATUS_CODES : String → Option Nat
  | "ValidationError" => some 400
  | "NotFoundError" => some 404
  | "ConflictError" => some 409
  | "UnauthorizedError" => some 401
  | "ForbiddenError" => some 403
  | "UnexpectedError" => some 500
  | "ZodError" => some 400
  | _ => none

/-- `ERROR_TITLES` record from `types/http-error.ts`. -/
def ERROR_TITLES : String → Option String
  | "ValidationError" => some "Validation Error"
  | "NotFoundError" => some "Not Found"
  | "ConflictError" => some "Conflict"
  | "UnauthorizedError" => some "Unauthorized"
  | "ForbiddenError" => some "Forbidden"
  | "UnexpectedError" => some "Internal Server Error"
  | "ZodError" => some "Validation Error"
  | _ => none

/-- `zodErrorToDetails` from `types/http-error.ts`: one `ValidationDetail` per
issue, the field being the dotted join of the issue's path. -/
def zodErrorToDetails (issues : List ZodIssue) : List ValidationDetail :=
  issues.map fun issue =>
    ⟨String.intercalate "." issue.path, issue.message, some issue.code⟩

/-- Problem-details body from `types/http-error.ts` (`ProblemDetails`);
the TS field `instance` is spelled `inst` here. -/
structure ProblemDetails where
  type : String
  title : String
  status : Nat
  detail : String
  inst : Option String
  errors : Option (List ValidationDetail)
deriving DecidableEq, Repr

/-- `HttpErrorResponse` from `types/http-error.ts`. -/
structure HttpErrorResponse where
  status : Nat
  body : ProblemDetails
  headers : List (String × String)
deriving DecidableEq, Repr

/-- `toHttpError` from `utils/http-error.ts`. The zod branch fires exactly on
`ZodError` inputs (the ones holding an `issues` array); the domain branch
indexes the three records by the value's `.type` string, with `?? 500`,
`?? "Internal Server Error"` and `?? ERROR_TYPE_URNS.UnexpectedError`
fallbacks, and uses the fixed generic detail whenever the status is 500.
(`(ERROR_TYPE_URNS "ZodError").getD ""` is the record access
`ERROR_TYPE_URNS.ZodError`: the key is present, the default is dead.) -/
def toHttpError (error : HttpErrorInput) (inst : Option String := none) :
    HttpErrorResponse :=
  match error with
  | .zod zodError =>
      { status := 400
        body :=
          { type := (ERROR_TYPE_URNS "ZodError").getD ""
            title := (ERROR_TITLES "ZodError").getD ""
            status := 400
            detail := "Request validation failed"
            inst := inst
            errors := some (zodErrorToDetails zodError) }
        headers := [("Content-Type", "application/problem+json")] }
  | .domain domainError =>
      let errorType := domainError.type
      let status := (ERROR_STATUS_CODES errorType).getD 500
      let title := (ERROR_TITLES errorType).getD "Internal Server Error"
      let typeUrn := (ERROR_TYPE_URNS errorType).getD
        ((ERROR_TYPE_URNS "UnexpectedError").getD "")
      let body : ProblemDetails :=
        { type := typeUrn
          title := title
          status := status
          detail := if status = 500 then "An unexpected error occurred"
            else domainError.message
          inst := inst
          errors := none }
      if errorType = "ValidationError" ∧ domainError.details.isSome then
        { status := status
          body := { body with errors := domainError.details }
          headers := [("Content-Type", "application/problem+json")] }
      else
        { status := status
          body := body
          headers := [("Content-Type", "application/problem+json")] }

/-- The six `DomainError` tags. -/
def domainErrorTags : List String :=
  ["ValidationError", "NotFoundError", "ConflictError",
   "UnauthorizedError", "ForbiddenError", "UnexpectedError"]


/-! ### Entities and in-memory repositories (`repositories/memory`)

`UserRepositoryError` and `PostRepositoryError` are subsets of `DomainError`;
the embedding uses `DomainError` as the uniform error type. The two domain
services read their repositories through structural `{findById}` /
`{findByEmail}` views whose error only needs a `.message`; `DomainError`
provides it. -/

/-- The `User` entity of `repositories/interfaces/user-repository.ts`. -/
structure UserR where
  id : String
  name : String
  email : String
  emailVerified : Option Nat
  image : Option String
  createdAt : Nat
  updatedAt : Nat
  deletedAt : Option Nat
deriving DecidableEq, Repr

/-- The `Post` entity of `repositories/interfaces/post-repository.ts`. -/
structure PostR where
  id : String
  title : String
  content : String
  authorId : String
  createdAt : Nat
  updatedAt : Nat
  deletedAt : Option Nat
deriving DecidableEq, Repr

/-- `CreateUserInput` of the user repository interface (`image ?? null`
normalises absent and null to `none`). -/
structure CreateUserRepoInput where
  name : String
  email : String
  image : Option String
deriving DecidableEq, Repr

/-- `FindAllUsersOptions` / `FindAllPostsOptions` pagination window (values
come validated, hence `Nat`). -/
structure FindAllOptions where
  limit : Nat
  offset : Nat
deriving DecidableEq, Repr

/-- `createInMemoryUserRepository().findById`: `Map.get`, then soft-deleted
entries are reported as `null`. -/
def usersFindById (s : List UserR) (id : String) :
    Except DomainError (Option UserR) :=
  match s.find? (fun u => u.id == id) with
  | some u => if u.deletedAt.isSome then .ok none else .ok (some u)
  | none => .ok none

/-- `createInMemoryUserRepository().findByEmail`: first non-deleted user with
the email, in insertion order. -/
def usersFindByEmail (s : List UserR) (email : String) :
    Except DomainError (Option UserR) :=
  .ok (s.find? (fun u => u.email == email && u.deletedAt.isNone))

/-- `FindAllUsersResult`. -/
structure FindAllUsersResult where
  users : List UserR
  total : Nat
deriving DecidableEq, Repr

/-- `createInMemoryUserRepository().findAll`: filters soft-deleted users,
counts them all, slices the pagination window. -/
def usersFindAll (s : List UserR) (options : FindAllOptions) :
    Except DomainError FindAllUsersResult :=
  let activeUsers := s.filter (fun u => u.deletedAt.isNone)
  .ok ⟨(activeUsers.drop options.offset).take options.limit, activeUsers.length⟩

/-- `createInMemoryUserRepository().create`: rejects a duplicate email held by
any non-deleted user, otherwise inserts a fresh user (`Map.set` on the fresh
random id appends). -/
def usersCreate (s : List UserR) (input : CreateUserRepoInput)
    (newId : String) (now : Nat) :
    Except DomainError UserR × List UserR :=
  if s.any (fun u => u.email == input.email && u.deletedAt.isNone) then
    (.error (conflictError
      ("User with email '" ++ input.email ++ "' already exists")
      (some "User") (some "duplicate_email")), s)
  else
    let newUser : UserR :=
      { id := newId, name := input.name, email := input.email
        emailVerified := none, image := input.image
        createdAt := now, updatedAt := now, deletedAt := none }
    (.ok newUser, s ++ [newUser])

/-- `createInMemoryUserRepository().delete`: soft delete; `Map.set` on the
existing key is the positional replacement `List.map` guarded on the key. -/
def usersDelete (s : List UserR) (now : Nat) (id : String) :
    Except DomainError Unit × List UserR :=
  match s.find? (fun u => u.id == id) with
  | none => (.error (notFoundError "User" (some id)), s)
  | some existing =>
    if existing.deletedAt.isSome then
      (.error (notFoundError "User" (some id)), s)
    else
      let deletedUser : UserR := { existing with deletedAt := some now }
      (.ok (), s.map (fun u => if u.id == id then deletedUser else u))

/-- `createInMemoryPostRepository().findById`. -/
def postsFindById (s : List PostR) (id : String) :
    Except DomainError (Option PostR) :=
  match s.find? (fun p => p.id == id) with
  | some p => if p.deletedAt.isSome then .ok none else .ok (some p)
  | none => .ok none

/-- `UpdatePostInput`: optional partial fields. -/
structure UpdatePostInput where
  title : Option String
  content : Option String
deriving DecidableEq, Repr

/-- `createInMemoryPostRepository().update`: partial update of title/content
(`?? existing` keeps the old value when the field is absent), refreshes
`updatedAt`, rejects absent or soft-deleted posts. -/
def postsUpdate (s : List PostR) (now : Nat) (id : String)
    (input : UpdatePostInput) :
    Except DomainError PostR × List PostR :=
  match s.find? (fun p => p.id == id) with
  | none => (.error (notFoundError "Post" (some id)), s)
  | some existing =>
    if existing.deletedAt.isSome then
      (.error (notFoundError "Post" (some id)), s)
    else
      let updatedPost : PostR :=
        { existing with
          title := input.title.getD existing.title
          content := input.content.getD existing.content
          updatedAt := now }
      (.ok updatedPost, s.map (fun p => if p.id == id then updatedPost else p))

/-- `createInMemoryPostRepository().delete`: soft delete, as for users. -/
def postsDelete (s : List PostR) (now : Nat) (id : String) :
    Except DomainError Unit × List PostR :=
  match s.find? (fun p => p.id == id) with
  | none => (.error (notFoundError "Post" (some id)), s)
  | some existing =>
    if existing.deletedAt.isSome then
      (.error (notFoundError "Post" (some id)), s)
    else
      let deletedPost : PostR := { existing with deletedAt := some now }
      (.ok (), s.map (fun p => if p.id == id then deletedPost else p))

/-! ### User authentication domain service (`user-authentication-service`) -/

/-- The `EMAIL_REGEX` test `/^[^\s@]+@[^\s@]+\.[^\s@]+$/` on the character
list: a non-empty whitespace-free local part before the single `@` (both
character classes exclude `@`), then a whitespace-free `@`-free remainder
containing a `.` that is neither its first nor its last character. -/
def emailRegexTest (email : String) : Bool :=
  let cs := email.toList
  let localPart := cs.takeWhile (fun c => c != '@')
  match cs.drop localPart.length with
  | '@' :: rest =>
    !localPart.isEmpty && localPart.all (fun c => !c.isWhitespace) &&
    !rest.contains '@' &&
    !rest.isEmpty && rest.all (fun c => !c.isWhitespace) &&
    ((rest.drop 1).dropLast.contains '.')
  | _ => false

/-- `validateEmailFormat` from the user-authentication service: required,
matches `EMAIL_REGEX`, at most 255 characters. (JS `!email` and
`email.trim() === ""` together reject exactly the strings whose characters
are all whitespace, the empty string included.) -/
def validateEmailFormat (email : String) : Except DomainError Unit :=
  if email.toList.all (fun c => c.isWhitespace) then
    .error (validationError "Email is required")
  else if !emailRegexTest email then
    .error (validationError "Invalid email format")
  else if email.length > 255 then
    .error (validationError "Email is too long (max 255 characters)")
  else
    .ok ()

/-- `isEmailAvailable` from the user-authentication service, over an abstract
`findByEmail` reader: validates the format, wraps a reader failure into a
`ValidationError`, and reports the email free iff no non-deleted user holds
it. -/
def isEmailAvailable (findByEmail : String → Except DomainError (Option UserR))
    (email : String) : Except DomainError Bool :=
  match validateEmailFormat email with
  | .error e => .error e
  | .ok _ =>
    match findByEmail email with
    | .error e => .error (validationError
        ("Failed to check email availability: " ++ e.message))
    | .ok user =>
      .ok (match user with
        | none => true
        | some u => u.deletedAt.isSome)


/-! ### Post authorization domain service (`post-authorization-service`)

The service is created over two repository readers (`UserReader`,
`PostReader`); the embedding passes them as function arguments. Their error
channel only needs a `.message`; `DomainError` supplies it. -/

/-- `AuthorizationResult` `{isAuthorized, reason?}`. -/
structure AuthorizationResult where
  isAuthorized : Bool
  reason : Option String
deriving DecidableEq, Repr

/-- `verifyUserExists` helper: a reader failure or an absent/soft-deleted
user becomes an `UnauthorizedError`. -/
def verifyUserExists (findUser : String → Except DomainError (Option UserR))
    (userId : String) : Except DomainError UserR :=
  match findUser userId with
  | .error e => .error (.unauthorized ("Failed to verify user: " ++ e.message))
  | .ok user =>
    match user with
    | none => .error (.unauthorized "User not found or deleted")
    | some u =>
      if u.deletedAt.isSome then
        .error (.unauthorized "User not found or deleted")
      else
        .ok u

/-- `verifyPostExists` helper: a reader failure or an absent/soft-deleted
post becomes a `NotFoundError`. -/
def verifyPostExists (findPost : String → Except DomainError (Option PostR))
    (postId : String) : Except DomainError PostR :=
  match findPost postId with
  | .error e =>
    .error (.notFound ("Failed to find post: " ++ e.message) "Post" (some postId))
  | .ok post =>
    match post with
    | none => .error (.notFound "Post not found or deleted" "Post" (some postId))
    | some p =>
      if p.deletedAt.isSome then
        .error (.notFound "Post not found or deleted" "Post" (some postId))
      else
        .ok p

/-- `canEditPost` from `createPostAuthorizationService`: verify the user,
verify the post, then compare the post's author with the user; a mismatch is
a successful result with `isAuthorized: false` and a reason. -/
def canEditPost (findUser : String → Except DomainError (Option UserR))
    (findPost : String → Except DomainError (Option PostR))
    (userId postId : String) : Except DomainError AuthorizationResult :=
  match verifyUserExists findUser userId with
  | .error e => .error e
  | .ok _ =>
    match verifyPostExists findPost postId with
    | .error e => .error e
    | .ok post =>
      if post.authorId != userId then
        .ok ⟨false, some "Only the author can edit this post"⟩
      else
        .ok ⟨true, none⟩

/-- `canDeletePost` from `createPostAuthorizationService`: same shape as
`canEditPost`, with the delete-specific reason. -/
def canDeletePost (findUser : String → Except DomainError (Option UserR))
    (findPost : String → Except DomainError (Option PostR))
    (userId postId : String) : Except DomainError AuthorizationResult :=
  match verifyUserExists findUser userId with
  | .error e => .error e
  | .ok _ =>
    match verifyPostExists findPost postId with
    | .error e => .error e
    | .ok post =>
      if post.authorId != userId then
        .ok ⟨false, some "Only the author can delete this post"⟩
      else
        .ok ⟨true, none⟩

/-- `canViewPost` from `createPostAuthorizationService`: no user argument and
no ownership check; every existing non-deleted post is viewable. -/
def canViewPost (findPost : String → Except DomainError (Option PostR))
    (postId : String) : Except DomainError AuthorizationResult :=
  match verifyPostExists findPost postId with
  | .error e => .error e
  | .ok _ => .ok ⟨true, none⟩

/-! ### Use cases -/

/-- `executeCreateUser` (`usecases/create-user/usecase.ts`) wired to the
in-memory user repository and the user-authentication service built over it,
as a state-passing function on the user store: check availability through the
domain service, translate `false` into a `ConflictError`, then call
`create`. The validated input doubles as the repository create input
(the usecase forwards `{name, email, image}` unchanged). -/
def executeCreateUser (s : List UserR) (input : CreateUserRepoInput)
    (newId : String) (now : Nat) : Except DomainError UserR × List UserR :=
  match isEmailAvailable (usersFindByEmail s) input.email with
  | .error e => (.error e, s)
  | .ok available =>
    if !available then
      (.error (conflictError
        ("User with email '" ++ input.email ++ "' already exists")
        (some "User") (some "duplicate_email")), s)
    else
      match usersCreate s input newId now with
      | (.error e, s2) => (.error e, s2)
      | (.ok u, s2) => (.ok u, s2)

/-- `executeDeleteUser` (`usecases/delete-user/usecase.ts`) wired to the
in-memory user repository: a single repository `delete` call whose failure is
returned unchanged; there is no actor parameter and no authorization stage. -/
def executeDeleteUser (s : List UserR) (now : Nat) (id : String) :
    Except DomainError Unit × List UserR :=
  match usersDelete s now id with
  | (.error e, s2) => (.error e, s2)
  | (.ok _, s2) => (.ok (), s2)

/-- `executeDeletePost` (`usecases/delete-post/usecase.ts`) wired to the
in-memory repositories, on the post store; `userId`/`postId` are the
`DeletePostInput` fields. The third component instruments the run: it is
`true` exactly when `postRepository.delete` was invoked. Authorization
failures propagate unchanged; a negative authorization outcome becomes an
`UnauthorizedError` from the outcome's reason (`??` default). -/
def executeDeletePost (users : List UserR) (posts : List PostR) (now : Nat)
    (userId postId : String) :
    Except DomainError Unit × List PostR × Bool :=
  match canDeletePost (usersFindById users) (postsFindById posts) userId postId with
  | .error e => (.error e, posts, false)
  | .ok authValue =>
    if !authValue.isAuthorized then
      (.error (unauthorizedError
        (authValue.reason.getD "You are not authorized to delete this post")),
       posts, false)
    else
      match postsDelete posts now postId with
      | (.error e, ps) => (.error e, ps, true)
      | (.ok _, ps) => (.ok (), ps, true)

/-! ### Validation stage (`usecases/create-user/input.ts`)

`parseCreateUserInput` runs `CreateUserInputSchema.safeParse` (zod) and maps
the issues to `ValidationDetail`s. The zod object schema is embedded over a
raw-object model: each declared key is absent, `null`, a string, or some
other value, and `safeParse` validates every key and aggregates the issues of
all of them in key-declaration order (name, email, image) — zod does not stop
at the first failing key. The two string-format checks supplied by the
library (`z.email`, `z.url`) are abstracted as predicate parameters
`emailOk` / `urlOk`; the claims under study do not depend on their choice. -/

/-- A raw value sitting under one key of the unvalidated input object. -/
inductive RawField where
  | absent
  | nullVal
  | str (s : String)
  | other
deriving DecidableEq, Repr

/-- The unvalidated input object of `parseCreateUserInput`, restricted to the
keys the schema declares (zod ignores unknown keys by default). -/
structure RawCreateUserInput where
  name : RawField
  email : RawField
  image : RawField
deriving DecidableEq, Repr

/-- Issues of the `name` key: `z.string().min(1, "name is required")
.max(255, "name must be at most 255 characters")`. -/
def nameIssues (f : RawField) : List ValidationDetail :=
  match f with
  | .str s =>
    (if s.length < 1 then
      [⟨"name", "name is required", some "too_small"⟩] else []) ++
    (if s.length > 255 then
      [⟨"name", "name must be at most 255 characters", some "too_big"⟩] else [])
  | _ => [⟨"name", "Invalid input: expected string", some "invalid_type"⟩]

/-- Issues of the `email` key: `z.email("email must be a valid email
address")`. -/
def emailIssues (emailOk : String → Bool) (f : RawField) : List ValidationDetail :=
  match f with
  | .str s =>
    if emailOk s then []
    else [⟨"email", "email must be a valid email address", some "invalid_format"⟩]
  | _ => [⟨"email", "Invalid input: expected string", some "invalid_type"⟩]

/-- Issues of the `image` key: `z.url("image must be a valid URL").max(255)
.optional().nullable()` — absent and `null` are accepted outright. -/
def imageIssues (urlOk : String → Bool) (f : RawField) : List ValidationDetail :=
  match f with
  | .absent => []
  | .nullVal => []
  | .str s =>
    (if urlOk s then []
     else [⟨"image", "image must be a valid URL", some "invalid_format"⟩]) ++
    (if s.length > 255 then
      [⟨"image", "Too big: expected string to have at most 255 characters",
        some "too_big"⟩] else [])
  | .other => [⟨"image", "Invalid input: expected string", some "invalid_type"⟩]

/-- `parseCreateUserInput`: on any issue, a `ValidationError` with message
`"Invalid create-user input"` and one detail per issue (`field` is the dotted
`issue.path` — a single key here, so the key itself); otherwise the typed
value (in the success case every key matched `.str`/null/absent, so the
fallback arms of the projections are dead). -/
def parseCreateUserInput (emailOk urlOk : String → Bool)
    (data : RawCreateUserInput) : Except DomainError CreateUserRepoInput :=
  let details :=
    nameIssues data.name ++ emailIssues emailOk data.email ++
      imageIssues urlOk data.image
  if details.isEmpty then
    .ok
      { name := (match data.name with | .str s => s | _ => "")
        email := (match data.email with | .str s => s | _ => "")
        image := (match data.image with | .str s => some s | _ => none) }
  else
    .error (validationError "Invalid create-user input" none (some details))

/-- Whether an embedded `Result` is a success. -/
def exceptIsOk : Except ε α → Bool
  | .ok _ => true
  | .error _ => false

/-- The details attached to a failed parse (empty for a success). -/
def resultDetails : Except DomainError α → List ValidationDetail
  | .error (.validation _ _ (some ds)) => ds
  | _ => []

/-- The number of independently-violated constraints of the `name` key. -/
def nameViolations (f : RawField) : Nat :=
  match f with
  | .str s => (if s.length < 1 then 1 else 0) + (if s.length > 255 then 1 else 0)
  | _ => 1

/-- The number of independently-violated constraints of the `email` key. -/
def emailViolations (emailOk : String → Bool) (f : RawField) : Nat :=
  match f with
  | .str s => if emailOk s then 0 else 1
  | _ => 1

/-- The number of independently-violated constraints of the `image` key. -/
def imageViolations (urlOk : String → Bool) (f : RawField) : Nat :=
  match f with
  | .absent => 0
  | .nullVal => 0
  | .str s => (if urlOk s then 0 else 1) + (if s.length > 255 then 1 else 0)
  | .other => 1

/-- Total number of independently-violated constraints in the raw input. -/
def totalViolations (emailOk urlOk : String → Bool)
    (data : RawCreateUserInput) : Nat :=
  nameViolations data.name + emailViolations emailOk data.email +
    imageViolations urlOk data.image

/-! ### Sample data used by concrete witnesses -/

/-- A sample active user (owner of `annPost`). -/
def annUser : UserR := ⟨"u1", "Ann", "ann@example.com", none, none, 0, 0, none⟩

/-- A second sample active user, not the author of `annPost`. -/
def bobUser : UserR := ⟨"u2", "Bob", "bob@example.com", none, none, 0, 0, none⟩

/-- A sample active post authored by `annUser`. -/
def annPost : PostR := ⟨"p1", "Hello", "World", "u1", 0, 0, none⟩

/-- The end-to-end scenario input `{name: "Ann", email: "ann@example.com"}`. -/
def annInput : CreateUserRepoInput := ⟨"Ann", "ann@example.com", none⟩

/-- The `ConflictError` produced for a duplicate `ann@example.com`. -/
def annConflict : DomainError :=
  conflictError "User with email 'ann@example.com' already exists"
    (some "User") (some "duplicate_email")

/-! ### Claims about the HTTP mapping stage (C1, C2) -/

/-- C1, as frozen, fails on the code: the three record tables of
`types/http-error.ts` hold a seventh key `ZodError` (mapped to 400 /
"Validation Error" / the validation URN). A domain-side value whose tag is
`"ZodError"` — a tag that is none of the six `DomainError` tags — therefore
maps to status 400, not to status 500 with the `UnexpectedError` title and
URN as the claim's unknown-tag clause requires. -/
theorem toHttpError_zodError_tag_not_500 :
    ("ZodError" ∉ domainErrorTags) ∧
    (toHttpError (.domain ⟨"ZodError", "boom", none, none⟩) none).status = 400 ∧
    (toHttpError (.domain ⟨"ZodError", "boom", none, none⟩) none).status ≠ 500 ∧
    (toHttpError (.domain ⟨"ZodError", "boom", none, none⟩) none).body.title =
      "Validation Error" ∧
    (toHttpError (.domain ⟨"ZodError", "boom", none, none⟩) none).body.type =
      "urn:app:error:validation" := by
  refine ⟨by decide, rfl, by decide, rfl, rfl⟩

/-- C1 (amended): for every domain-side value and optional instance,
`toHttpError` fixes status, title and type URN from the tag alone —
ValidationError ↦ (400, "Validation Error", urn validation),
NotFoundError ↦ (404, "Not Found", urn not-found),
ConflictError ↦ (409, "Conflict", urn conflict),
UnauthorizedError ↦ (401, "Unauthorized", urn unauthorized),
ForbiddenError ↦ (403, "Forbidden", urn forbidden),
UnexpectedError ↦ (500, "Internal Server Error", urn unexpected);
a value whose tag is none of the six *and not the seventh record key
`"ZodError"`* maps to status 500 with the UnexpectedError title and URN
(a `"ZodError"`-tagged value maps to 400, "Validation Error", urn
validation); and the body's `status` field always equals the response's
status. -/
theorem toHttpError_tag_determines_response (e : ErrorValue) (inst : Option String) :
    (e.type = "ValidationError" →
      (toHttpError (.domain e) inst).status = 400 ∧
      (toHttpError (.domain e) inst).body.title = "Validation Error" ∧
      (toHttpError (.domain e) inst).body.type = "urn:app:error:validation") ∧
    (e.type = "NotFoundError" →
      (toHttpError (.domain e) inst).status = 404 ∧
      (toHttpError (.domain e) inst).body.title = "Not Found" ∧
      (toHttpError (.domain e) inst).body.type = "urn:app:error:not-found") ∧
    (e.type = "ConflictError" →
      (toHttpError (.domain e) inst).status = 409 ∧
      (toHttpError (.domain e) inst).body.title = "Conflict" ∧
      (toHttpError (.domain e) inst).body.type = "urn:app:error:conflict") ∧
    (e.type = "UnauthorizedError" →
      (toHttpError (.domain e) inst).status = 401 ∧
      (toHttpError (.domain e) inst).body.title = "Unauthorized" ∧
      (toHttpError (.domain e) inst).body.type = "urn:app:error:unauthorized") ∧
    (e.type = "ForbiddenError" →
      (toHttpError (.domain e) inst).status = 403 ∧
      (toHttpError (.domain e) inst).body.title = "Forbidden" ∧
      (toHttpError (.domain e) inst).body.type = "urn:app:error:forbidden") ∧
    (e.type = "UnexpectedError" →
      (toHttpError (.domain e) inst).status = 500 ∧
      (toHttpError (.domain e) inst).body.title = "Internal Server Error" ∧
      (toHttpError (.domain e) inst).body.type = "urn:app:error:unexpected") ∧
    (e.type ∉ domainErrorTags → e.type ≠ "ZodError" →
      (toHttpError (.domain e) inst).status = 500 ∧
      (toHttpError (.domain e) inst).body.title = "Internal Server Error" ∧
      (toHttpError (.domain e) inst).body.type = "urn:app:error:unexpected") ∧
    (e.type = "ZodError" →
      (toHttpError (.domain e) inst).status = 400 ∧
      (toHttpError (.domain e) inst).body.title = "Validation Error" ∧
      (toHttpError (.domain e) inst).body.type = "urn:app:error:validation") ∧
    (toHttpError (.domain e) inst).body.status =
      (toHttpError (.domain e) inst).status := by
  obtain ⟨t, m, d, c⟩ := e
  refine ⟨?_, ?_, ?_, ?_, ?_, ?_, ?_, ?_, ?_⟩
  all_goals simp only [toHttpError]
  · rintro rfl
    cases d <;> simp [ERROR_STATUS_CODES, ERROR_TITLES, ERROR_TYPE_URNS]
  · rintro rfl
    cases d <;> simp [ERROR_STATUS_CODES, ERROR_TITLES, ERROR_TYPE_URNS]
  · rintro rfl
    cases d <;> simp [ERROR_STATUS_CODES, ERROR_TITLES, ERROR_TYPE_URNS]
  · rintro rfl
    cases d <;> simp [ERROR_STATUS_CODES, ERROR_TITLES, ERROR_TYPE_URNS]
  · rintro rfl
    cases d <;> simp [ERROR_STATUS_CODES, ERROR_TITLES, ERROR_TYPE_URNS]
  · rintro rfl
    cases d <;> simp [ERROR_STATUS_CODES, ERROR_TITLES, ERROR_TYPE_URNS]
  · intro hmem hzod
    simp only [domainErrorTags, List.mem_cons, List.not_mem_nil, or_false,
      not_or] at hmem
    obtain ⟨h1, h2, h3, h4, h5, h6⟩ := hmem
    have hs : ERROR_STATUS_CODES t = none := by
      unfold ERROR_STATUS_CODES
      split <;> simp_all
    have ht : ERROR_TITLES t = none := by
      unfold ERROR_TITLES
      split <;> simp_all
    have hu : ERROR_TYPE_URNS t = none := by
      unfold ERROR_TYPE_URNS
      split <;> simp_all
    simp [hs, ht, hu, h1, ERROR_TYPE_URNS]
  · rintro rfl
    cases d <;> simp [ERROR_STATUS_CODES, ERROR_TITLES, ERROR_TYPE_URNS]
  · by_cases hv : t = "ValidationError" ∧ d.isSome <;> simp [hv]

/-- Witness for C1 (amended): the unknown-tag clause and the Conflict row,
instantiated at concrete values. -/
theorem toHttpError_tag_determines_response_witness :
    (toHttpError (.domain ⟨"SomeOtherTag", "m", none, none⟩) none).status = 500 ∧
    (toHttpError (.domain ⟨"ConflictError", "m", none, none⟩) none).status = 409 := by
  constructor
  · exact ((toHttpError_tag_determines_response ⟨"SomeOtherTag", "m", none, none⟩
      none).2.2.2.2.2.2.1 (by decide) (by decide)).1
  · exact ((toHttpError_tag_determines_response ⟨"ConflictError", "m", none, none⟩
      none).2.2.1 rfl).1

/-- C2: for every message, cause and instance, the response for
`unexpectedError(message, cause)` carries the fixed generic detail, and any
two `UnexpectedError` values — whatever their message and cause — yield the
very same response for the same instance, so neither the message nor the
cause occurs anywhere in the body. -/
theorem toHttpError_unexpected_is_constant (m m2 : String)
    (c c2 : Option String) (inst : Option String) :
    (toHttpError (.domain (unexpectedError m c).toErrorValue) inst).body.detail =
      "An unexpected error occurred" ∧
    toHttpError (.domain (unexpectedError m c).toErrorValue) inst =
      toHttpError (.domain (unexpectedError m2 c2).toErrorValue) inst := by
  exact ⟨rfl, rfl⟩

/-! ### Claim about the authorization service (C3) -/

/-- C3: over any repository readers whose two lookups succeed,
`canEditPost` follows the claimed algorithm — an absent or soft-deleted user
gives a failed result holding an `UnauthorizedError` (not a `NotFoundError`);
otherwise an absent or soft-deleted post gives a failed result holding a
`NotFoundError`; otherwise a foreign post gives a *successful* result with
`isAuthorized: false` and a human-readable reason; otherwise a successful
result with `isAuthorized: true`. `canDeletePost` behaves the same way (with
its own reason string), and `canViewPost` performs no user or ownership check:
it authorizes every existing non-deleted post and rejects the rest with a
`NotFoundError`. -/
theorem canEditPost_follows_algorithm
    (fu : String → Except DomainError (Option UserR))
    (fp : String → Except DomainError (Option PostR))
    (userId postId : String) (uo : Option UserR) (po : Option PostR)
    (hu : fu userId = .ok uo) (hp : fp postId = .ok po) :
    ((uo = none ∨ ∃ u, uo = some u ∧ u.deletedAt.isSome) →
      canEditPost fu fp userId postId =
        .error (.unauthorized "User not found or deleted") ∧
      canDeletePost fu fp userId postId =
        .error (.unauthorized "User not found or deleted")) ∧
    (∀ u, uo = some u → u.deletedAt = none →
      (po = none ∨ ∃ p, po = some p ∧ p.deletedAt.isSome) →
      canEditPost fu fp userId postId =
        .error (.notFound "Post not found or deleted" "Post" (some postId)) ∧
      canDeletePost fu fp userId postId =
        .error (.notFound "Post not found or deleted" "Post" (some postId))) ∧
    (∀ u p, uo = some u → u.deletedAt = none → po = some p →
      p.deletedAt = none →
      (p.authorId ≠ userId →
        canEditPost fu fp userId postId =
          .ok ⟨false, some "Only the author can edit this post"⟩ ∧
        canDeletePost fu fp userId postId =
          .ok ⟨false, some "Only the author can delete this post"⟩) ∧
      (p.authorId = userId →
        canEditPost fu fp userId postId = .ok ⟨true, none⟩ ∧
        canDeletePost fu fp userId postId = .ok ⟨true, none⟩)) ∧
    (∀ p, po = some p → p.deletedAt = none →
      canViewPost fp postId = .ok ⟨true, none⟩) ∧
    ((po = none ∨ ∃ p, po = some p ∧ p.deletedAt.isSome) →
      canViewPost fp postId =
        .error (.notFound "Post not found or deleted" "Post" (some postId))) := by
  refine ⟨?_, ?_, ?_, ?_, ?_⟩
  · rintro (rfl | ⟨u, rfl, hdel⟩)
    · simp [canEditPost, canDeletePost, verifyUserExists, hu]
    · simp [canEditPost, canDeletePost, verifyUserExists, hu, hdel]
  · rintro u rfl hact (rfl | ⟨p, rfl, hdel⟩)
    · simp [canEditPost, canDeletePost, verifyUserExists, verifyPostExists,
        hu, hp, hact]
    · simp [canEditPost, canDeletePost, verifyUserExists, verifyPostExists,
        hu, hp, hact, hdel]
  · rintro u p rfl hact rfl hpact
    constructor
    · intro hne
      simp [canEditPost, canDeletePost, verifyUserExists, verifyPostExists,
        hu, hp, hact, hpact, hne]
    · intro heq
      simp [canEditPost, canDeletePost, verifyUserExists, verifyPostExists,
        hu, hp, hact, hpact, heq]
  · rintro p rfl hpact
    simp [canViewPost, verifyPostExists, hp, hpact]
  · rintro (rfl | ⟨p, rfl, hdel⟩)
    · simp [canViewPost, verifyPostExists, hp]
    · simp [canViewPost, verifyPostExists, hp, hdel]

/-- Witness for C3: over the two-user, one-post store, the non-author gets a
successful `isAuthorized: false` outcome from `canEditPost` and the author a
successful `isAuthorized: true` outcome from `canDeletePost`. -/
theorem canEditPost_follows_algorithm_witness :
    canEditPost (usersFindById [annUser, bobUser]) (postsFindById [annPost])
      "u2" "p1" = .ok ⟨false, some "Only the author can edit this post"⟩ ∧
    canDeletePost (usersFindById [annUser, bobUser]) (postsFindById [annPost])
      "u1" "p1" = .ok ⟨true, none⟩ := by
  have h2 := (canEditPost_follows_algorithm
    (usersFindById [annUser, bobUser]) (postsFindById [annPost]) "u2" "p1"
    (some bobUser) (some annPost) rfl rfl).2.2.1 bobUser annPost rfl rfl rfl rfl
  have h1 := (canEditPost_follows_algorithm
    (usersFindById [annUser, bobUser]) (postsFindById [annPost]) "u1" "p1"
    (some annUser) (some annPost) rfl rfl).2.2.1 annUser annPost rfl rfl rfl rfl
  exact ⟨(h2.1 (by decide)).1, (h1.2 rfl).2⟩

/-! ### Claim about the delete-post use case (C4) -/

/-- C4: on every store and input on which `canDeletePost` returns a failed
result or a successful result with `isAuthorized: false`, `executeDeletePost`
fails — with the authorization error unchanged, resp. with an
`UnauthorizedError` built from the returned reason (`??` default) — the post
repository's `delete` is never invoked (the instrumentation flag is `false`)
and the post store is returned unchanged. -/
theorem executeDeletePost_fails_fast_without_authorization
    (users : List UserR) (posts : List PostR) (now : Nat)
    (userId postId : String) :
    (∀ e, canDeletePost (usersFindById users) (postsFindById posts)
        userId postId = .error e →
      executeDeletePost users posts now userId postId =
        (.error e, posts, false)) ∧
    (∀ r, canDeletePost (usersFindById users) (postsFindById posts)
        userId postId = .ok r → r.isAuthorized = false →
      executeDeletePost users posts now userId postId =
        (.error (unauthorizedError
          (r.reason.getD "You are not authorized to delete this post")),
         posts, false)) := by
  constructor
  · intro e h
    simp [executeDeletePost, h]
  · intro r h hr
    simp [executeDeletePost, h, hr]

/-- Witness for C4: in the two-user store where Bob is not the author of
Ann's post, Bob's delete attempt fails with the service's reason, the store
is unchanged and the repository delete was not invoked. -/
theorem executeDeletePost_fails_fast_without_authorization_witness :
    executeDeletePost [annUser, bobUser] [annPost] 7 "u2" "p1" =
      (.error (unauthorizedError "Only the author can delete this post"),
       [annPost], false) :=
  (executeDeletePost_fails_fast_without_authorization
    [annUser, bobUser] [annPost] 7 "u2" "p1").2
    ⟨false, some "Only the author can delete this post"⟩ rfl rfl

/-! ### Claim about the create-user use case (C5) -/

/-- C5: on every store containing a non-deleted user with the (valid)
supplied email, `executeCreateUser` fails with the duplicate-email
`ConflictError` and leaves the store unchanged; and concretely, running the
same `{name: "Ann", email: "ann@example.com"}` create twice from the empty
store succeeds the first time and fails with that `ConflictError` the second
time, which `toHttpError` renders as status 409 with the conflict URN. -/
theorem executeCreateUser_duplicate_email_conflicts
    (s : List UserR) (input : CreateUserRepoInput) (newId : String) (now : Nat)
    (hfmt : validateEmailFormat input.email = .ok ())
    (hdup : ∃ u ∈ s, u.email = input.email ∧ u.deletedAt = none) :
    (executeCreateUser s input newId now =
      (.error (conflictError
        ("User with email '" ++ input.email ++ "' already exists")
        (some "User") (some "duplicate_email")), s)) ∧
    exceptIsOk (executeCreateUser [] annInput "id1" 0).1 = true ∧
    (executeCreateUser (executeCreateUser [] annInput "id1" 0).2
      annInput "id2" 1).1 = .error annConflict ∧
    (toHttpError (.domain annConflict.toErrorValue) none).status = 409 ∧
    (toHttpError (.domain annConflict.toErrorValue) none).body.type =
      "urn:app:error:conflict" := by
  refine ⟨?_, rfl, rfl, rfl, rfl⟩
  obtain ⟨u, hu, hemail, hdel⟩ := hdup
  have hex : (s.find? (fun v => v.email == input.email && v.deletedAt.isNone)).isSome :=
    List.find?_isSome.mpr ⟨u, hu, by simp [hemail, hdel]⟩
  obtain ⟨u2, hfind⟩ := Option.isSome_iff_exists.mp hex
  have hp := List.find?_some hfind
  simp only [Bool.and_eq_true, beq_iff_eq, Option.isNone_iff_eq_none] at hp
  have hne : u2.deletedAt.isSome = false := by simp [hp.2]
  simp [executeCreateUser, isEmailAvailable, hfmt, usersFindByEmail, hfind, hne]

/-- Witness for C5: in the one-user store already holding
`ann@example.com`, the same create fails with the duplicate-email conflict
and the store is unchanged. -/
theorem executeCreateUser_duplicate_email_conflicts_witness :
    executeCreateUser [annUser] annInput "id9" 3 = (.error annConflict, [annUser]) :=
  (executeCreateUser_duplicate_email_conflicts [annUser] annInput "id9" 3 rfl
    ⟨annUser, by simp, rfl, rfl⟩).1

/-! ### Claim about soft-delete semantics of the in-memory repository (C6) -/

/-- Looking a key up after the keyed positional replacement (`Map.set` on an
existing key) yields the replacement whenever the lookup previously
succeeded. -/
theorem find?_map_guard {α : Type} (key : α → String) (id : String) (w : α)
    (hw : key w = id) (l : List α) :
    (l.map (fun x => if key x == id then w else x)).find?
        (fun x => key x == id) =
      (l.find? (fun x => key x == id)).map (fun _ => w) := by
  induction l with
  | nil => rfl
  | cons h t ih =>
    cases hh : (key h == id) with
    | true => simp [List.find?, hh, hw]
    | false => simpa [List.find?, hh] using ih

/-- Soft-deleting the found active user removes exactly one entry from the
active count, provided the store's keys are pairwise distinct. -/
theorem filter_active_length_after_delete (id : String) (w : UserR)
    (hw : w.deletedAt.isSome = true) (s : List UserR) (u0 : UserR)
    (hfind : s.find? (fun u => u.id == id) = some u0)
    (hact : u0.deletedAt = none)
    (hnd : (s.map UserR.id).Nodup) :
    ((s.map (fun u => if u.id == id then w else u)).filter
        (fun u => u.deletedAt.isNone)).length + 1 =
      (s.filter (fun u => u.deletedAt.isNone)).length := by
  induction s with
  | nil => simp at hfind
  | cons h t ih =>
    simp only [List.map_cons, List.nodup_cons] at hnd
    cases hh : (h.id == id) with
    | true =>
      have hu0 : u0 = h := by
        have h2 := hfind
        simp only [List.find?, hh] at h2
        exact (Option.some_inj.mp h2).symm
      have hid : h.id = id := by simpa using hh
      have htid : ∀ x ∈ t, (x.id == id) = false := by
        intro x hx
        simp only [beq_eq_false_iff_ne, ne_eq]
        intro hxid
        exact hnd.1 (hid ▸ hxid ▸ List.mem_map_of_mem UserR.id hx)
      have hmap : t.map (fun u => if u.id == id then w else u) = t := by
        calc t.map (fun u => if u.id == id then w else u)
            = t.map (fun u => u) := List.map_congr_left (fun x hx => by
              simp [htid x hx])
          _ = t := List.map_id' t
      have hhact : h.deletedAt.isNone = true := by
        rw [← hu0, hact]
        rfl
      simp only [List.map_cons]
      rw [if_pos hh, hmap, List.filter_cons, List.filter_cons]
      rw [if_neg (by simp [Option.isSome_iff_ne_none.mp hw]), if_pos hhact,
        List.length_cons]
    | false =>
      have hfind2 : t.find? (fun u => u.id == id) = some u0 := by
        simpa [List.find?, hh] using hfind
      have E := ih hfind2 hnd.2
      simp only [List.map_cons]
      rw [if_neg (by simp [hh]), List.filter_cons, List.filter_cons]
      cases hhd : h.deletedAt.isNone with
      | true =>
        rw [if_pos rfl, if_pos rfl, List.length_cons, List.length_cons]
        omega
      | false =>
        rw [if_neg (by simp), if_neg (by simp)]
        exact E

/-- C6: on every Map-reachable store (pairwise-distinct ids), once
`delete(id)` succeeds, `findById(id)` answers a successful result holding
`null`, the deleted entity shows up neither in `findAll`'s items nor in its
`total` count (which drops by exactly one), and a second `delete(id)` fails
with the `NotFoundError` of the repository. -/
theorem usersDelete_soft_delete_semantics
    (s : List UserR) (now now2 : Nat) (id : String) (opts : FindAllOptions)
    (u0 : UserR)
    (hfind : s.find? (fun u => u.id == id) = some u0)
    (hact : u0.deletedAt = none)
    (hnd : (s.map UserR.id).Nodup) :
    (usersDelete s now id).1 = .ok () ∧
    usersFindById (usersDelete s now id).2 id = .ok none ∧
    (∀ r r0, usersFindAll (usersDelete s now id).2 opts = .ok r →
      usersFindAll s opts = .ok r0 →
      (∀ v ∈ r.users, v.id ≠ id) ∧ r.total + 1 = r0.total) ∧
    usersDelete (usersDelete s now id).2 now2 id =
      (.error (notFoundError "User" (some id)), (usersDelete s now id).2) := by
  have hid : u0.id = id := by simpa using List.find?_some hfind
  have hiso : u0.deletedAt.isSome = false := by simp [hact]
  have hdel : usersDelete s now id =
      (.ok (), s.map (fun u =>
        if u.id == id then { u0 with deletedAt := some now } else u)) := by
    simp only [usersDelete, hfind]
    rw [if_neg (by simp [hiso])]
  have hfind2 : (s.map (fun u =>
      if u.id == id then { u0 with deletedAt := some now } else u)).find?
        (fun u => u.id == id) = some { u0 with deletedAt := some now } := by
    rw [find?_map_guard UserR.id id { u0 with deletedAt := some now } hid]
    rw [hfind]
    rfl
  refine ⟨by simp [hdel], ?_, ?_, ?_⟩
  · rw [hdel]
    unfold usersFindById
    rw [hfind2]
    rfl
  · intro r r0 hr hr0
    rw [hdel] at hr
    simp only [usersFindAll, Except.ok.injEq] at hr hr0
    constructor
    · intro v hv
      rw [← hr] at hv
      have hv1 : v ∈ (s.map (fun u =>
          if u.id == id then { u0 with deletedAt := some now } else u)).filter
            (fun u => u.deletedAt.isNone) :=
        List.mem_of_mem_drop (List.mem_of_mem_take hv)
      obtain ⟨hvmem, hvact⟩ := List.mem_filter.mp hv1
      obtain ⟨x, hx, hfx⟩ := List.mem_map.mp hvmem
      by_cases hxid : (x.id == id) = true
      · rw [if_pos hxid] at hfx
        rw [← hfx] at hvact
        simp at hvact
      · rw [if_neg hxid] at hfx
        rw [← hfx]
        simpa using hxid
    · rw [← hr, ← hr0]
      exact filter_active_length_after_delete id
        { u0 with deletedAt := some now } rfl s u0 hfind hact hnd
  · rw [hdel]
    unfold usersDelete
    rw [hfind2]
    rfl

/-- Witness for C6: deleting Ann from the two-user store makes her lookup
answer `null` and a repeated delete fail with `NotFoundError`. -/
theorem usersDelete_soft_delete_semantics_witness :
    usersFindById (usersDelete [annUser, bobUser] 5 "u1").2 "u1" = .ok none ∧
    usersDelete (usersDelete [annUser, bobUser] 5 "u1").2 6 "u1" =
      (.error (notFoundError "User" (some "u1")),
       (usersDelete [annUser, bobUser] 5 "u1").2) := by
  have h := usersDelete_soft_delete_semantics [annUser, bobUser] 5 6 "u1"
    ⟨20, 0⟩ annUser rfl rfl (by decide)
  exact ⟨h.2.1, h.2.2.2⟩

/-! ### Claim about exhaustive validation (C7) -/

/-- Every `name` issue is keyed `"name"`, and their number is the number of
independently-violated `name` constraints. -/
theorem nameIssues_count (f : RawField) :
    ((nameIssues f).filter (fun d => d.field == "name")).length =
      nameViolations f ∧
    ∀ d ∈ nameIssues f, d.field = "name" := by
  cases f with
  | str s =>
    constructor
    · by_cases h1 : s.length < 1 <;> by_cases h2 : s.length > 255 <;>
        simp [nameIssues, nameViolations, h1, h2]
    · by_cases h1 : s.length < 1 <;> by_cases h2 : s.length > 255 <;>
        simp [nameIssues, h1, h2]
  | absent => simp [nameIssues, nameViolations]
  | nullVal => simp [nameIssues, nameViolations]
  | other => simp [nameIssues, nameViolations]

/-- Every `email` issue is keyed `"email"`, and their number is the number of
independently-violated `email` constraints. -/
theorem emailIssues_count (emailOk : String → Bool) (f : RawField) :
    ((emailIssues emailOk f).filter (fun d => d.field == "email")).length =
      emailViolations emailOk f ∧
    ∀ d ∈ emailIssues emailOk f, d.field = "email" := by
  cases f with
  | str s =>
    constructor
    · by_cases h1 : emailOk s = true <;>
        simp [emailIssues, emailViolations, h1]
    · by_cases h1 : emailOk s = true <;> simp [emailIssues, h1]
  | absent => simp [emailIssues, emailViolations]
  | nullVal => simp [emailIssues, emailViolations]
  | other => simp [emailIssues, emailViolations]

/-- Every `image` issue is keyed `"image"`, and their number is the number of
independently-violated `image` constraints. -/
theorem imageIssues_count (urlOk : String → Bool) (f : RawField) :
    ((imageIssues urlOk f).filter (fun d => d.field == "image")).length =
      imageViolations urlOk f ∧
    ∀ d ∈ imageIssues urlOk f, d.field = "image" := by
  cases f with
  | str s =>
    constructor
    · by_cases h1 : urlOk s = true <;> by_cases h2 : s.length > 255 <;>
        simp [imageIssues, imageViolations, h1, h2]
    · by_cases h1 : urlOk s = true <;> by_cases h2 : s.length > 255 <;>
        simp [imageIssues, h1, h2]
  | absent => simp [imageIssues, imageViolations]
  | nullVal => simp [imageIssues, imageViolations]
  | other => simp [imageIssues, imageViolations]

/-- The details attached to a parse outcome are exactly the issue lists of
the three schema keys in declaration order (an empty concatenation for a
success). -/
theorem resultDetails_parseCreateUserInput (emailOk urlOk : String → Bool)
    (data : RawCreateUserInput) :
    resultDetails (parseCreateUserInput emailOk urlOk data) =
      nameIssues data.name ++ emailIssues emailOk data.email ++
        imageIssues urlOk data.image := by
  unfold parseCreateUserInput
  by_cases h : (nameIssues data.name ++ emailIssues emailOk data.email ++
      imageIssues urlOk data.image).isEmpty = true
  · rw [if_pos h]
    rw [List.isEmpty_iff] at h
    rw [h]
    rfl
  · rw [if_neg h]
    rfl

/-- C7: validation is exhaustive. For every raw input, the parse fails iff at
least one constraint is violated; the details list then has exactly one entry
per independently-violated constraint — per key as well as in total — each
entry keyed by the dotted path of the offending key; in particular, the empty
object `{}` yields exactly the two details for `name` and `email`. -/
theorem parseCreateUserInput_collects_all_violations
    (emailOk urlOk : String → Bool) (data : RawCreateUserInput) :
    (exceptIsOk (parseCreateUserInput emailOk urlOk data) = true ↔
      totalViolations emailOk urlOk data = 0) ∧
    (resultDetails (parseCreateUserInput emailOk urlOk data)).length =
      totalViolations emailOk urlOk data ∧
    ((resultDetails (parseCreateUserInput emailOk urlOk data)).filter
      (fun d => d.field == "name")).length = nameViolations data.name ∧
    ((resultDetails (parseCreateUserInput emailOk urlOk data)).filter
      (fun d => d.field == "email")).length =
        emailViolations emailOk data.email ∧
    ((resultDetails (parseCreateUserInput emailOk urlOk data)).filter
      (fun d => d.field == "image")).length = imageViolations urlOk data.image ∧
    parseCreateUserInput emailOk urlOk ⟨.absent, .absent, .absent⟩ =
      .error (validationError "Invalid create-user input" none (some
        [⟨"name", "Invalid input: expected string", some "invalid_type"⟩,
         ⟨"email", "Invalid input: expected string", some "invalid_type"⟩])) := by
  have hn := nameIssues_count data.name
  have he := emailIssues_count emailOk data.email
  have hi := imageIssues_count urlOk data.image
  have hnfull : (nameIssues data.name).filter (fun d => d.field == "name") =
      nameIssues data.name :=
    List.filter_eq_self.mpr (fun d hd => by simp [hn.2 d hd])
  have hefull : (emailIssues emailOk data.email).filter
      (fun d => d.field == "email") = emailIssues emailOk data.email :=
    List.filter_eq_self.mpr (fun d hd => by simp [he.2 d hd])
  have hifull : (imageIssues urlOk data.image).filter
      (fun d => d.field == "image") = imageIssues urlOk data.image :=
    List.filter_eq_self.mpr (fun d hd => by simp [hi.2 d hd])
  have hnlen : (nameIssues data.name).length = nameViolations data.name := by
    rw [← hn.1, hnfull]
  have helen : (emailIssues emailOk data.email).length =
      emailViolations emailOk data.email := by
    rw [← he.1, hefull]
  have hilen : (imageIssues urlOk data.image).length =
      imageViolations urlOk data.image := by
    rw [← hi.1, hifull]
  have hrd := resultDetails_parseCreateUserInput emailOk urlOk data
  have hlen : (nameIssues data.name ++ emailIssues emailOk data.email ++
      imageIssues urlOk data.image).length =
        totalViolations emailOk urlOk data := by
    simp [List.length_append, hnlen, helen, hilen, totalViolations]
    omega
  refine ⟨?_, ?_, ?_, ?_, ?_, rfl⟩
  · unfold parseCreateUserInput
    by_cases h : (nameIssues data.name ++ emailIssues emailOk data.email ++
        imageIssues urlOk data.image).isEmpty = true
    · rw [if_pos h]
      have h0 : (nameIssues data.name ++ emailIssues emailOk data.email ++
          imageIssues urlOk data.image).length = 0 := by
        rw [List.isEmpty_iff] at h
        rw [h]
        rfl
      simp [exceptIsOk]
      omega
    · rw [if_neg h]
      have h0 : (nameIssues data.name ++ emailIssues emailOk data.email ++
          imageIssues urlOk data.image).length ≠ 0 := by
        intro hc
        exact h (by rw [List.isEmpty_iff, ← List.length_eq_zero]; exact hc)
      simp [exceptIsOk]
      omega
  · rw [hrd, hlen]
  · rw [hrd]
    have hb : (emailIssues emailOk data.email).filter
        (fun d => d.field == "name") = [] :=
      List.filter_eq_nil_iff.mpr (fun d hd => by simp [he.2 d hd])
    have hc : (imageIssues urlOk data.image).filter
        (fun d => d.field == "name") = [] :=
      List.filter_eq_nil_iff.mpr (fun d hd => by simp [hi.2 d hd])
    rw [List.filter_append, List.filter_append, hb, hc, hnfull]
    simp [hnlen]
  · rw [hrd]
    have ha : (nameIssues data.name).filter
        (fun d => d.field == "email") = [] :=
      List.filter_eq_nil_iff.mpr (fun d hd => by simp [hn.2 d hd])
    have hc : (imageIssues urlOk data.image).filter
        (fun d => d.field == "email") = [] :=
      List.filter_eq_nil_iff.mpr (fun d hd => by simp [hi.2 d hd])
    rw [List.filter_append, List.filter_append, ha, hc, hefull]
    simp [helen]
  · rw [hrd]
    have ha : (nameIssues data.name).filter
        (fun d => d.field == "image") = [] :=
      List.filter_eq_nil_iff.mpr (fun d hd => by simp [hn.2 d hd])
    have hb : (emailIssues emailOk data.email).filter
        (fun d => d.field == "image") = [] :=
      List.filter_eq_nil_iff.mpr (fun d hd => by simp [he.2 d hd])
    rw [List.filter_append, List.filter_append, ha, hb, hifull]
    simp [hilen]

/-- Witness for C7: submitting `{}` yields exactly two field errors, and the
detail count matches the violation count at a concrete instantiation. -/
theorem parseCreateUserInput_collects_all_violations_witness :
    (resultDetails (parseCreateUserInput (fun _ => true) (fun _ => true)
      ⟨.absent, .absent, .absent⟩)).length = 2 ∧
    (resultDetails (parseCreateUserInput (fun _ => true) (fun _ => true)
      ⟨.absent, .absent, .absent⟩)).map ValidationDetail.field =
      ["name", "email"] := by
  have h := parseCreateUserInput_collects_all_violations
    (fun _ => true) (fun _ => true) ⟨.absent, .absent, .absent⟩
  refine ⟨h.2.1.trans (by decide), ?_⟩
  rw [h.2.2.2.2.2]
  rfl

/-! ### Claim about the delete-user use case (C8) -/

/-- C8: `executeDeleteUser` takes no actor and performs no authorization
check: on every store holding a non-deleted user with the given id it
succeeds and soft-deletes that user; its only failure mode is the repository
delete's `NotFoundError` (absent or already-deleted user), returned with the
store unchanged. -/
theorem executeDeleteUser_no_actor_check (s : List UserR) (now : Nat)
    (id : String) :
    (∀ u, s.find? (fun v => v.id == id) = some u → u.deletedAt = none →
      executeDeleteUser s now id =
        (.ok (), s.map (fun v =>
          if v.id == id then { u with deletedAt := some now } else v))) ∧
    (s.find? (fun v => v.id == id) = none →
      executeDeleteUser s now id =
        (.error (notFoundError "User" (some id)), s)) ∧
    (∀ u, s.find? (fun v => v.id == id) = some u → u.deletedAt ≠ none →
      executeDeleteUser s now id =
        (.error (notFoundError "User" (some id)), s)) ∧
    (∀ e s2, executeDeleteUser s now id = (.error e, s2) →
      e = notFoundError "User" (some id) ∧ s2 = s) := by
  refine ⟨?_, ?_, ?_, ?_⟩
  · intro u hf ha
    have hso : u.deletedAt.isSome = false := by simp [ha]
    simp only [executeDeleteUser, usersDelete, hf]
    rw [if_neg (by simp [hso])]
  · intro hf
    simp only [executeDeleteUser, usersDelete, hf]
  · intro u hf ha
    have hso : u.deletedAt.isSome = true := Option.isSome_iff_ne_none.mpr ha
    simp only [executeDeleteUser, usersDelete, hf]
    rw [if_pos hso]
  · intro e s2 h
    cases hf : s.find? (fun v => v.id == id) with
    | none =>
      simp only [executeDeleteUser, usersDelete, hf] at h
      cases h
      exact ⟨rfl, rfl⟩
    | some u =>
      by_cases hso : u.deletedAt.isSome = true
      · simp only [executeDeleteUser, usersDelete, hf] at h
        rw [if_pos hso] at h
        cases h
        exact ⟨rfl, rfl⟩
      · simp only [executeDeleteUser, usersDelete, hf] at h
        rw [if_neg hso] at h
        cases h

/-- Witness for C8: Bob is soft-deleted without any actor being involved. -/
theorem executeDeleteUser_no_actor_check_witness :
    executeDeleteUser [annUser, bobUser] 4 "u2" =
      (.ok (), [annUser, { bobUser with deletedAt := some 4 }]) := by
  have h := (executeDeleteUser_no_actor_check [annUser, bobUser] 4 "u2").1
    bobUser rfl rfl
  rw [h]
  rfl

/-! ### Claim about the in-memory post update (C9) -/

/-- C9: on every store holding a non-deleted post with the given id,
`update(id, input)` returns and stores a post that changes only `title` and
`content` — each only when supplied — and `updatedAt`; its `id`, `authorId`,
`createdAt` and `deletedAt` equal the pre-update values; and every other post
(any entry with a different id) is carried over unchanged, in both
directions. -/
theorem postsUpdate_frame (s : List PostR) (now : Nat) (id : String)
    (input : UpdatePostInput) (p0 : PostR)
    (hfind : s.find? (fun p => p.id == id) = some p0)
    (hact : p0.deletedAt = none) :
    ∃ p2, postsUpdate s now id input =
        (.ok p2, s.map (fun p => if p.id == id then p2 else p)) ∧
      p2.title = input.title.getD p0.title ∧
      p2.content = input.content.getD p0.content ∧
      p2.updatedAt = now ∧
      p2.id = p0.id ∧ p2.authorId = p0.authorId ∧
      p2.createdAt = p0.createdAt ∧ p2.deletedAt = p0.deletedAt ∧
      (input.title = none → p2.title = p0.title) ∧
      (input.content = none → p2.content = p0.content) ∧
      (∀ t, input.title = some t → p2.title = t) ∧
      (∀ c, input.content = some c → p2.content = c) ∧
      (postsUpdate s now id input).2.find? (fun p => p.id == id) = some p2 ∧
      (∀ q ∈ s, q.id ≠ id → q ∈ (postsUpdate s now id input).2) ∧
      (∀ q ∈ (postsUpdate s now id input).2, q.id ≠ id → q ∈ s) ∧
      (postsUpdate s now id input).2.length = s.length := by
  have hid : p0.id = id := by simpa using List.find?_some hfind
  refine ⟨{ p0 with
      title := input.title.getD p0.title
      content := input.content.getD p0.content
      updatedAt := now }, ?_⟩
  have hupd : postsUpdate s now id input =
      (.ok { p0 with
          title := input.title.getD p0.title
          content := input.content.getD p0.content
          updatedAt := now },
        s.map (fun p => if p.id == id then
          { p0 with
            title := input.title.getD p0.title
            content := input.content.getD p0.content
            updatedAt := now } else p)) := by
    simp only [postsUpdate, hfind]
    rw [if_neg (by simp [hact])]
  have hsnd : (postsUpdate s now id input).2 =
      s.map (fun p => if p.id == id then
        { p0 with
          title := input.title.getD p0.title
          content := input.content.getD p0.content
          updatedAt := now } else p) := by
    rw [hupd]
  have hfindW : (s.map (fun p => if p.id == id then
      { p0 with
        title := input.title.getD p0.title
        content := input.content.getD p0.content
        updatedAt := now } else p)).find? (fun p => p.id == id) =
        some { p0 with
          title := input.title.getD p0.title
          content := input.content.getD p0.content
          updatedAt := now } := by
    rw [find?_map_guard PostR.id id
      { p0 with
        title := input.title.getD p0.title
        content := input.content.getD p0.content
        updatedAt := now } hid, hfind]
    rfl
  refine ⟨hupd, rfl, rfl, rfl, rfl, rfl, rfl, rfl,
    ?_, ?_, ?_, ?_, ?_, ?_, ?_, ?_⟩
  · intro h
    show input.title.getD p0.title = p0.title
    rw [h]
    rfl
  · intro h
    show input.content.getD p0.content = p0.content
    rw [h]
    rfl
  · intro t h
    show input.title.getD p0.title = t
    rw [h]
    rfl
  · intro c h
    show input.content.getD p0.content = c
    rw [h]
    rfl
  · rw [hsnd]
    exact hfindW
  · intro q hq hqid
    rw [hsnd]
    exact List.mem_map.mpr ⟨q, hq, by rw [if_neg (by simpa using hqid)]⟩
  · intro q hq hqid
    rw [hsnd] at hq
    obtain ⟨x, hx, hfx⟩ := List.mem_map.mp hq
    by_cases hxid : (x.id == id) = true
    · rw [if_pos hxid] at hfx
      rw [← hfx] at hqid
      exact absurd hid (by simpa using hqid)
    · rw [if_neg hxid] at hfx
      rw [← hfx]
      exact hx
  · rw [hsnd]
    exact List.length_map s _

/-- Witness for C9: updating only the title of Ann's post keeps its author
and stores the updated post in place. -/
theorem postsUpdate_frame_witness :
    ∃ p2, postsUpdate [annPost] 9 "p1" ⟨some "New", none⟩ =
        (.ok p2, [annPost].map (fun p => if p.id == "p1" then p2 else p)) ∧
      p2.title = "New" ∧ p2.authorId = annPost.authorId ∧
      p2.deletedAt = annPost.deletedAt := by
  obtain ⟨p2, h1, ht, hc, hu, hid2, hauth, hcr, hdel2, _⟩ :=
    postsUpdate_frame [annPost] 9 "p1" ⟨some "New", none⟩ annPost rfl rfl
  exact ⟨p2, h1, ht, hauth, hdel2⟩

/-! ### Claim about soft-deleted emails being reusable (C10) -/

/-- C10: a soft-deleted user's email is not reserved. On every store in
which every holder of the (well-formed) email is soft-deleted,
`isEmailAvailable` answers a successful `true`, and `executeCreateUser` with
that email succeeds, appending exactly the fresh user. -/
theorem isEmailAvailable_ignores_soft_deleted
    (s : List UserR) (name email : String) (image : Option String)
    (newId : String) (now : Nat)
    (hfmt : validateEmailFormat email = .ok ())
    (hdel : ∀ u ∈ s, u.email = email → u.deletedAt ≠ none) :
    isEmailAvailable (usersFindByEmail s) email = .ok true ∧
    executeCreateUser s ⟨name, email, image⟩ newId now =
      (.ok { id := newId, name := name, email := email, emailVerified := none,
             image := image, createdAt := now, updatedAt := now,
             deletedAt := none },
       s ++ [{ id := newId, name := name, email := email,
               emailVerified := none, image := image, createdAt := now,
               updatedAt := now, deletedAt := none }]) := by
  have hnp : ∀ u ∈ s, ¬((fun u => u.email == email && u.deletedAt.isNone) u
      = true) := by
    intro u hu hp
    simp only [Bool.and_eq_true, beq_iff_eq, Option.isNone_iff_eq_none] at hp
    exact hdel u hu hp.1 hp.2
  have hfind : s.find? (fun u => u.email == email && u.deletedAt.isNone) =
      none := List.find?_eq_none.mpr hnp
  have hav : isEmailAvailable (usersFindByEmail s) email = .ok true := by
    simp [isEmailAvailable, hfmt, usersFindByEmail, hfind]
  have hany : s.any (fun u => u.email == email && u.deletedAt.isNone) =
      false := by
    rw [List.any_eq_false]
    exact hnp
  refine ⟨hav, ?_⟩
  simp [executeCreateUser, hav, usersCreate, hany]

/-- Witness for C10: `ann@example.com`, held only by a soft-deleted user, is
available again and the create appends the fresh user. -/
theorem isEmailAvailable_ignores_soft_deleted_witness :
    executeCreateUser [{ annUser with deletedAt := some 2 }] annInput
      "id7" 8 =
      (.ok { id := "id7", name := "Ann", email := "ann@example.com",
             emailVerified := none, image := none, createdAt := 8,
             updatedAt := 8, deletedAt := none },
       [{ annUser with deletedAt := some 2 },
        { id := "id7", name := "Ann", email := "ann@example.com",
          emailVerified := none, image := none, createdAt := 8,
          updatedAt := 8, deletedAt := none }]) :=
  (isEmailAvailable_ignores_soft_deleted [{ annUser with deletedAt := some 2 }]
    "Ann" "ann@example.com" none "id7" 8 rfl
    (by
      intro u hu he
      rw [List.mem_singleton] at hu
      subst hu
      simp)).2
